import Mathlib

/-!
Verification development for the poker repository.

Shallow embedding of the source files `src/card.rs`, `src/error.rs` and
`src/holdem.rs`.  Rust strings are modelled as `List Char` (the tokens of
interest are ASCII, where byte length and character length coincide, and
`str::to_lowercase` agrees with character-wise `Char.toLower`).  Fallible
operations (`TryFrom`, array indexing, `panic!`-reachable code) are modelled
with `Except` / `Option`.
-/

/-- Error enum from `src/error.rs`. -/
inductive Error where
  | BadValue : List Char → Error
  | BadSuit : List Char → Error
  | BadCard : List Char → Error
  | BadRank : Error
  | BadHand : Error
deriving DecidableEq, Repr

/-- Suit enum from `src/card.rs`. -/
inductive Suit where
  | Heart
  | Diamond
  | Club
  | Spade
deriving DecidableEq, Repr, Fintype

/-- `Suit::values()` from `src/card.rs`. -/
def Suit.valuesList : List Suit := [.Heart, .Diamond, .Club, .Spade]

/-- Value enum from `src/card.rs`; discriminants are `Two = 2 .. Ace = 14`. -/
inductive Value where
  | Two
  | Three
  | Four
  | Five
  | Six
  | Seven
  | Eight
  | Nine
  | Ten
  | Jack
  | Queen
  | King
  | Ace
deriving DecidableEq, Repr, Fintype

/-- `Value::value(self) -> u8`: the enum discriminant (2..14, fits in `u8`). -/
def Value.value : Value → Nat
  | .Two => 2
  | .Three => 3
  | .Four => 4
  | .Five => 5
  | .Six => 6
  | .Seven => 7
  | .Eight => 8
  | .Nine => 9
  | .Ten => 10
  | .Jack => 11
  | .Queen => 12
  | .King => 13
  | .Ace => 14

/-- `Value::values()` from `src/card.rs`: note the order starts at `Ace`. -/
def Value.valuesList : List Value :=
  [.Ace, .Two, .Three, .Four, .Five, .Six, .Seven, .Eight, .Nine, .Ten,
   .Jack, .Queen, .King]

/-- `impl From<u8> for Value`: `Value::values()[value as usize]`.
The out-of-bounds panic is modelled as `none`. -/
def Value.fromU8 (n : Nat) : Option Value := Value.valuesList[n]?

/-- `SUIT_STRINGS` from `src/card.rs`. -/
def suitStrings : List (List Char) := [['h'], ['d'], ['c'], ['s']]

/-- `VALUE_STRINGS` from `src/card.rs`. -/
def valueStrings : List (List Char) :=
  [['a'], ['2'], ['3'], ['4'], ['5'], ['6'], ['7'], ['8'], ['9'],
   ['1', '0'], ['j'], ['q'], ['k']]

/-- `SUIT_LOOKUP`: the map built by zipping `SUIT_STRINGS` with
`Suit::values()`. -/
def suitLookup : List (List Char × Suit) := suitStrings.zip Suit.valuesList

/-- `VALUE_LOOKUP`: the map built by zipping `VALUE_STRINGS` with
`Value::values()`. -/
def valueLookup : List (List Char × Value) := valueStrings.zip Value.valuesList

/-- `str::to_lowercase`, character-wise (faithful on ASCII input). -/
def toLowerStr (s : List Char) : List Char := s.map Char.toLower

/-- `impl TryFrom<&str> for Suit`. -/
def Suit.tryFrom (s : List Char) : Except Error Suit :=
  match List.lookup (toLowerStr s) suitLookup with
  | some su => .ok su
  | none => .error (.BadSuit s)

/-- `impl TryFrom<&str> for Value`. -/
def Value.tryFrom (v : List Char) : Except Error Value :=
  match List.lookup (toLowerStr v) valueLookup with
  | some va => .ok va
  | none => .error (.BadValue v)

/-- Card from `src/card.rs`: `Card(Suit, Value)`; `suit` and `value` mirror
the accessors `Card::suit` and `Card::value`. -/
structure Card where
  suit : Suit
  value : Value
deriving DecidableEq, Repr

/-- `impl TryFrom<&str> for Card`: length must be 2 or 3; the token is split
before its last character; the suit (last character) is parsed first, then
the value prefix. -/
def Card.tryFrom (t : List Char) : Except Error Card :=
  let len := t.length
  if len ≠ 2 ∧ len ≠ 3 then .error (.BadCard ("invalid length".toList))
  else
    match Suit.tryFrom (t.drop (len - 1)) with
    | .error e => .error e
    | .ok su =>
      match Value.tryFrom (t.take (len - 1)) with
      | .error e => .error e
      | .ok va => .ok ⟨su, va⟩

/-- `impl Display for Suit`. -/
def Suit.display : Suit → List Char
  | .Heart => ['h']
  | .Diamond => ['d']
  | .Club => ['c']
  | .Spade => ['s']

/-- `impl Display for Value`: `A`/`K`/`Q`/`J` for faces, otherwise the
decimal digits of the numeric value. -/
def Value.display (v : Value) : List Char :=
  match v with
  | .Ace => ['A']
  | .King => ['K']
  | .Queen => ['Q']
  | .Jack => ['J']
  | other => Nat.toDigits 10 other.value

/-- `impl Display for Card`: value rendered before suit. -/
def Card.display (c : Card) : List Char := c.value.display ++ c.suit.display

/-! ## `src/holdem.rs` -/

/-- Rank enum from `src/holdem.rs`; discriminants are `HighCard = 1 ..
RoyalStraightFlush = 10`. -/
inductive Rank where
  | HighCard
  | Pair
  | TwoPair
  | Set
  | Straight
  | Flush
  | FullHouse
  | Bomb
  | StraightFlush
  | RoyalStraightFlush
deriving DecidableEq, Repr

/-- Discriminant of `Rank` (`HighCard = 1`, increasing in declaration
order). -/
def Rank.disc : Rank → Nat
  | .HighCard => 1
  | .Pair => 2
  | .TwoPair => 3
  | .Set => 4
  | .Straight => 5
  | .Flush => 6
  | .FullHouse => 7
  | .Bomb => 8
  | .StraightFlush => 9
  | .RoyalStraightFlush => 10

/-- The derived `PartialOrd`/`Ord` on the payload-free `Rank` enum compares
discriminants. -/
def Rank.lt (a b : Rank) : Prop := a.disc < b.disc

instance (a b : Rank) : Decidable (Rank.lt a b) := Nat.decLt a.disc b.disc

/-- Mutable state of the scan loop in `HoldemHand::rank`: the two buckets of
`pairs`, the `high` singles list, the two flags, and the trailing cards
`pre` / `pre2`. -/
structure RankState where
  pairs0 : List Card
  pairs1 : List Card
  high : List Card
  isFlush : Bool
  isStraight : Bool
  pre : Card
  pre2 : Card
deriving DecidableEq, Repr

/-- One iteration of the loop `for (i, cur) in cards[1..].iter().enumerate()`
in `HoldemHand::rank`.  The mutations of `pairs`, `high` and the flags are
expressed functionally; `u8` arithmetic on card values stays below 15, so
`Nat` addition is overflow-faithful. -/
def rankStep (st : RankState) (p : Nat × Card) : RankState :=
  let i := p.1
  let cur := p.2
  let isFlush := if st.isFlush = true ∧ cur.suit ≠ st.pre.suit then false
    else st.isFlush
  let isStraight :=
    if st.isStraight = true ∧ cur.value.value + 1 ≠ st.pre.value.value then
      if ¬(st.pre.value = Value.Ace ∧ cur.value = Value.Five) then false
      else st.isStraight
    else st.isStraight
  let p0e := st.pairs0.isEmpty
  let p1e := st.pairs1.isEmpty
  -- the triple is (pairs0, pairs1, high) after this iteration
  let t : List Card × List Card × List Card :=
    if cur.value = st.pre.value then
      let buf := if i = 3 then [st.pre, cur] else [st.pre]
      if p0e = true then (st.pairs0 ++ buf, st.pairs1, st.high)
      else if st.pre.value = st.pre2.value then
        (st.pairs0 ++ buf, st.pairs1, st.high)
      else (st.pairs0, st.pairs1 ++ buf, st.high)
    else
      let hp : List Card × List Card × List Card :=
        if p0e = true ∨ st.pre.value ≠ st.pre2.value then
          (st.pairs0, st.pairs1, st.high ++ [st.pre])
        else if st.pre.value = st.pre2.value then
          if p1e = false then (st.pairs0, st.pairs1 ++ [st.pre], st.high)
          else (st.pairs0 ++ [st.pre], st.pairs1, st.high)
        else (st.pairs0, st.pairs1, st.high)
      if i = 3 then (hp.1, hp.2.1, hp.2.2 ++ [cur]) else hp
  { pairs0 := t.1, pairs1 := t.2.1, high := t.2.2, isFlush := isFlush,
    isStraight := isStraight, pre := cur, pre2 := st.pre }

/-- The scan loop of `HoldemHand::rank` over the five (already sorted)
cards: both `pre` and `pre2` start at `cards[0]`, and the loop enumerates
`cards[1..]`. -/
def scan5 (c0 c1 c2 c3 c4 : Card) : RankState :=
  List.foldl rankStep
    { pairs0 := [], pairs1 := [], high := [], isFlush := true,
      isStraight := true, pre := c0, pre2 := c0 }
    [(0, c1), (1, c2), (2, c3), (3, c4)]

/-- `HoldemHand::rank` from `src/holdem.rs`.  A `HoldemHand` is modelled as
its list of five cards (sorted descending by value, see `HoldemHand.new`);
the wildcard arm of the source's `match high.len()` contains `panic!` and is
modelled as `none`, as is the (type-enforced in Rust) non-5-card case. -/
def HoldemHand.rank (cards : List Card) : Option Rank :=
  match cards with
  | [c0, c1, c2, c3, c4] =>
    let st := scan5 c0 c1 c2 c3 c4
    if st.isFlush && st.isStraight then
      -- royal straight flush when the second-highest card is a king
      if c1.value = Value.King then some .RoyalStraightFlush
      else some .StraightFlush
    else if st.isFlush then some .Flush
    else if st.isStraight then some .Straight
    else
      match st.high.length with
      | 5 => some .HighCard
      | 3 => some .Pair
      | 2 => some .Set
      | 1 => if st.pairs1.length = 0 then some .Bomb else some .TwoPair
      | 0 => some .FullHouse
      | _ => none
  | _ => none

/-- Descending-by-value comparison used by `HoldemHand::new`
(`cards.sort_by(|a, b| b.value().cmp(&a.value()))`). -/
def cardGe (a b : Card) : Prop := b.value.value ≤ a.value.value

instance : DecidableRel cardGe := fun a b => Nat.decLe b.value.value a.value.value

instance : IsTotal Card cardGe :=
  ⟨fun a b => Nat.le_total b.value.value a.value.value⟩

instance : IsTrans Card cardGe :=
  ⟨fun _ _ _ h h2 => Nat.le_trans h2 h⟩

/-- `HoldemHand::new`: sort the five cards descending by value (a stable
sort, like Rust's `sort_by`). -/
def HoldemHand.new (cards : List Card) : List Card :=
  List.insertionSort cardGe cards

/-- Whitespace splitter: recursion of `splitWS` (models
`str::split_whitespace`, which never yields empty tokens). -/
def splitWSAux : List Char → List (List Char)
  | [] => [[]]
  | c :: rest =>
    let acc := splitWSAux rest
    if c.isWhitespace then [] :: acc
    else (c :: acc.headD []) :: acc.tail

/-- `str::split_whitespace`: split on whitespace runs, dropping empty
tokens. -/
def splitWS (l : List Char) : List (List Char) :=
  (splitWSAux l).filter (fun w => ¬w.isEmpty)

/-- `value.split_whitespace().map(Card::try_from).collect::<Result<_, _>>()`:
sequential parsing that stops at the first error. -/
def parseCards : List (List Char) → Except Error (List Card)
  | [] => .ok []
  | t :: rest =>
    match Card.tryFrom t with
    | .error e => .error e
    | .ok c =>
      match parseCards rest with
      | .error e => .error e
      | .ok cs => .ok (c :: cs)

/-- `impl TryFrom<&str> for HoldemHand`: parse all tokens, then require
exactly five cards, then sort via `HoldemHand::new`. -/
def HoldemHand.tryFrom (input : List Char) : Except Error (List Card) :=
  match parseCards (splitWS input) with
  | .error e => .error e
  | .ok cards =>
    if cards.length ≠ 5 then .error (.BadCard ("invalid number of cards".toList))
    else .ok (HoldemHand.new cards)

/-- Helper for development checks: parse then rank. -/
def parseRank (s : String) : Option Rank :=
  match HoldemHand.tryFrom s.toList with
  | .ok h => HoldemHand.rank h
  | .error _ => none

/-!
## Claim-side definitions

The spec describes the classification as a dispatch on the run-length
groups of the descending-sorted cards together with flush/straight flags
(spec section 4.3).  These definitions follow the spec's words and are
compared against `HoldemHand.rank` (which follows the source).
-/

/-- Run lengths of consecutive equal values: recursion of `runCounts`,
carrying the current value and its count so far. -/
def runCountsAux : Value → Nat → List Value → List Nat
  | _, n, [] => [n]
  | v, n, w :: rest =>
    if w = v then runCountsAux v (n + 1) rest
    else n :: runCountsAux w 1 rest

/-- Run-length groups of equal values computed by a linear scan of the
(sorted) value sequence, as prescribed by spec section 4.3 step 1. -/
def runCounts : List Value → List Nat
  | [] => []
  | v :: rest => runCountsAux v 1 rest

/-- Largest group size. -/
def maxCount (l : List Nat) : Nat := l.foldr Nat.max 0

/-- Spec-side `is_flush`: all five cards share the same suit. -/
def claimFlush (c0 c1 c2 c3 c4 : Card) : Bool :=
  decide (c0.suit = c1.suit ∧ c0.suit = c2.suit ∧ c0.suit = c3.suit ∧
    c0.suit = c4.suit)

/-- Spec-side adjacency check for `is_straight`: the higher card's value is
the lower's value plus one, or the adjacency is the Ace-then-Five wheel
exception. -/
def adjacentOk (pre cur : Card) : Bool :=
  decide (cur.value.value + 1 = pre.value.value) ||
    decide (pre.value = Value.Ace ∧ cur.value = Value.Five)

/-- Spec-side `is_straight`: all four adjacent checks hold. -/
def claimStraight (c0 c1 c2 c3 c4 : Card) : Bool :=
  adjacentOk c0 c1 && adjacentOk c1 c2 && adjacentOk c2 c3 && adjacentOk c3 c4

/-- The category prescribed by claim C2's dispatch on (number of distinct
value groups, `is_flush`, `is_straight`) for the descending-sorted cards.
The claim prescribes nothing for one group (impossible for five distinct
cards); that arm is `none`. -/
def claimRank (cards : List Card) : Option Rank :=
  match cards with
  | [c0, c1, c2, c3, c4] =>
    let rc := runCounts [c0.value, c1.value, c2.value, c3.value, c4.value]
    let fl := claimFlush c0 c1 c2 c3 c4
    let st := claimStraight c0 c1 c2 c3 c4
    match rc.length with
    | 5 =>
      if fl && st then
        if c1.value = Value.King then some .RoyalStraightFlush
        else some .StraightFlush
      else if fl then some .Flush
      else if st then some .Straight
      else some .HighCard
    | 4 => some .Pair
    | 3 => if maxCount rc = 2 then some .TwoPair else some .Set
    | 2 => if maxCount rc = 3 then some .FullHouse else some .Bomb
    | _ => none
  | _ => none

/-- Number of run-length groups as a function of the adjacent-equality
bits: each `false` bit starts a new group. -/
def gTab : Bool → Bool → Bool → Bool → Nat
  | b1, b2, b3, b4 =>
    1 + (cond b1 0 1) + (cond b2 0 1) + (cond b3 0 1) + (cond b4 0 1)

/-- Largest run length as a function of the adjacent-equality bits. -/
def mTab : Bool → Bool → Bool → Bool → Nat
  | false, false, false, false => 1
  | true , false, false, false => 2
  | false, true , false, false => 2
  | false, false, true , false => 2
  | false, false, false, true  => 2
  | true , true , false, false => 3
  | false, true , true , false => 3
  | false, false, true , true  => 3
  | true , false, true , false => 2
  | true , false, false, true  => 2
  | false, true , false, true  => 2
  | true , true , true , false => 4
  | false, true , true , true  => 4
  | true , true , false, true  => 3
  | true , false, true , true  => 3
  | true , true , true , true  => 5

/-- Length of the `high` list as a function of the adjacent-equality bits. -/
def hlTab : Bool → Bool → Bool → Bool → Nat
  | false, false, false, false => 5
  | true , false, false, false => 3
  | false, true , false, false => 3
  | false, false, true , false => 3
  | false, false, false, true  => 3
  | true , true , false, false => 2
  | false, true , true , false => 2
  | false, false, true , true  => 2
  | true , false, true , false => 1
  | true , false, false, true  => 1
  | false, true , false, true  => 1
  | true , true , true , false => 1
  | false, true , true , true  => 1
  | true , true , false, true  => 0
  | true , false, true , true  => 0
  | true , true , true , true  => 0

/-- Length of the `pairs[1]` list as a function of the adjacent-equality
bits. -/
def p1Tab : Bool → Bool → Bool → Bool → Nat
  | false, false, false, false => 0
  | true , false, false, false => 0
  | false, true , false, false => 0
  | false, false, true , false => 0
  | false, false, false, true  => 0
  | true , true , false, false => 0
  | false, true , true , false => 0
  | false, false, true , true  => 0
  | true , false, true , false => 2
  | true , false, false, true  => 2
  | false, true , false, true  => 2
  | true , true , true , false => 0
  | false, true , true , true  => 0
  | true , true , false, true  => 2
  | true , false, true , true  => 1
  | true , true , true , true  => 0

/-- Extract the card from a successful parse (junk default, only used under
an `isOk` hypothesis). -/
def okCard (r : Except Error Card) : Card :=
  match r with
  | .ok c => c
  | .error _ => ⟨Suit.Heart, Value.Two⟩

/-- Characters that can appear (after lowercasing) in a suit or value
token. -/
def allowedChars : List Char :=
  ['a', '2', '3', '4', '5', '6', '7', '8', '9', '1', '0', 'j', 'q', 'k',
   'h', 'd', 'c', 's']

/-- Join tokens with single spaces (one way of laying the five tokens out
in an input string). -/
def joinWS : List (List Char) → List Char
  | [] => []
  | [t] => t
  | t :: ts => t ++ ' ' :: joinWS ts

/-- Descending order on values (image of `cardGe` under `Card.value`). -/
def valGe (a b : Value) : Prop := b.value ≤ a.value

instance : DecidableRel valGe := fun a b => Nat.decLe b.value a.value

instance : IsAntisymm Value valGe := ⟨by decide⟩

/-! ## Development checks mirroring the repository unit tests -/

-- Checks mirroring the unit tests of `src/card.rs` (development sanity).
example : Suit.tryFrom ['H'] = .ok Suit.Heart := rfl
example : Suit.tryFrom ['x'] = .error (.BadSuit ['x']) := rfl
example : Value.tryFrom ("10".toList) = .ok Value.Ten := rfl
example : Value.tryFrom ("13".toList) = .error (.BadValue ("13".toList)) := rfl
example : Value.tryFrom ['1'] = .error (.BadValue ['1']) := rfl
example : Card.tryFrom ("2H".toList) = .ok ⟨Suit.Heart, Value.Two⟩ := rfl
example : Card.tryFrom ("aD".toList) = .ok ⟨Suit.Diamond, Value.Ace⟩ := rfl
example : Card.tryFrom ("10d".toList) = .ok ⟨Suit.Diamond, Value.Ten⟩ := rfl
example : Card.tryFrom ("pk".toList) = .error (.BadSuit ['k']) := rfl
example : Card.tryFrom ("20D".toList) = .error (.BadValue ("20".toList)) := rfl
example : Card.tryFrom ("100D".toList) =
    .error (.BadCard ("invalid length".toList)) := rfl
example : Card.tryFrom [] = .error (.BadCard ("invalid length".toList)) := rfl
example : Card.display ⟨Suit.Diamond, Value.Ten⟩ = "10d".toList := rfl

-- Checks mirroring the unit tests of `src/holdem.rs` (development sanity).
example : HoldemHand.tryFrom ("2c 3c 4c 5c 6c".toList) =
    .ok [⟨Suit.Club, Value.Six⟩, ⟨Suit.Club, Value.Five⟩,
      ⟨Suit.Club, Value.Four⟩, ⟨Suit.Club, Value.Three⟩,
      ⟨Suit.Club, Value.Two⟩] := rfl
example : HoldemHand.tryFrom ("2c 3c 4c 5c 6c 7c".toList) =
    .error (.BadCard ("invalid number of cards".toList)) := rfl
example : HoldemHand.tryFrom ("2k 3c 4c 5c 6c".toList) =
    .error (.BadSuit ['k']) := rfl
example : HoldemHand.tryFrom ("1s 3c 4c 5c 6c".toList) =
    .error (.BadValue ['1']) := rfl

example : parseRank ("As 10s Ks Qs js") = some .RoyalStraightFlush := rfl
example : parseRank ("2c 3c 4c 5c Ac") = some .StraightFlush := rfl
example : parseRank ("2s 9c 9s 9d 9h") = some .Bomb := rfl
example : parseRank ("2c 2c 3c 3s 2h") = some .FullHouse := rfl
example : parseRank ("2c 3c qc ac 9c") = some .Flush := rfl
example : parseRank ("4c 3h 5d 7s 6s") = some .Straight := rfl
example : parseRank ("2c 3h 2d 2s as") = some .Set := rfl
example : parseRank ("2c 3h ad 3s 2s") = some .TwoPair := rfl
example : parseRank ("2c kh ad js 2s") = some .Pair := rfl
example : parseRank ("2c 3h ad ks 10s") = some .HighCard := rfl
example : parseRank ("As 5c 4d 3h 2s") = some .Straight := rfl
example : parseRank ("6c 5h 4d 3s 2c") = some .Straight := rfl
example : parseRank ("2c 2c 3c 4c 5c") = some .Flush := rfl

/-!
## Scan lemmas

The scan of `HoldemHand::rank` only ever compares adjacent cards, so its
outcome is a function of the four adjacent value-equality bits (and the
suits via `is_flush` only).  `hlTab`/`p1Tab` tabulate the lengths of the
`high` and `pairs[1]` lists over the sixteen bit patterns.
-/

/-- The flag update of the flush check in the loop body, in closed form. -/
lemma flushIf (b : Bool) (q : Prop) [Decidable q] :
    (if b = true ∧ q then false else b) = (b && !decide q) := by
  cases b <;> by_cases hq : q <;> simp [hq]

/-- The flag update of the straight check in the loop body, in closed
form. -/
lemma straightIf (b : Bool) (q w : Prop) [Decidable q] [Decidable w] :
    (if b = true ∧ q then if ¬w then false else b else b)
      = (b && (!decide q || decide w)) := by
  cases b <;> by_cases hq : q <;> by_cases hw : w <;> simp [hq, hw]

/-- After the scan, `is_flush` holds exactly when all four adjacent suit
equalities hold. -/
lemma scan5_isFlush (c0 c1 c2 c3 c4 : Card) :
    (scan5 c0 c1 c2 c3 c4).isFlush =
      (decide (c1.suit = c0.suit) && decide (c2.suit = c1.suit) &&
        decide (c3.suit = c2.suit) && decide (c4.suit = c3.suit)) := by
  simp only [scan5, List.foldl, rankStep, flushIf]
  simp [Bool.and_assoc]

/-- After the scan, `is_straight` holds exactly when all four adjacent
checks (consecutive values, or the Ace-then-Five wheel exception) hold. -/
lemma scan5_isStraight (c0 c1 c2 c3 c4 : Card) :
    (scan5 c0 c1 c2 c3 c4).isStraight =
      claimStraight c0 c1 c2 c3 c4 := by
  simp only [scan5, List.foldl, rankStep, straightIf]
  simp [claimStraight, adjacentOk, Bool.and_assoc]

/-- The `high` and `pairs[1]` lists produced by the scan have the lengths
tabulated by `hlTab` and `p1Tab` over the adjacent value-equality bits. -/
lemma scan5_high_pairs (c0 c1 c2 c3 c4 : Card) :
    (scan5 c0 c1 c2 c3 c4).high.length =
      hlTab (decide (c1.value = c0.value)) (decide (c2.value = c1.value))
        (decide (c3.value = c2.value)) (decide (c4.value = c3.value)) ∧
    (scan5 c0 c1 c2 c3 c4).pairs1.length =
      p1Tab (decide (c1.value = c0.value)) (decide (c2.value = c1.value))
        (decide (c3.value = c2.value)) (decide (c4.value = c3.value)) := by
  obtain ⟨s0, v0⟩ := c0
  obtain ⟨s1, v1⟩ := c1
  obtain ⟨s2, v2⟩ := c2
  obtain ⟨s3, v3⟩ := c3
  obtain ⟨s4, v4⟩ := c4
  by_cases h1 : v1 = v0 <;> by_cases h2 : v2 = v1 <;>
    by_cases h3 : v3 = v2 <;> by_cases h4 : v4 = v3
  all_goals try subst h4
  all_goals try subst h3
  all_goals try subst h2
  all_goals try subst h1
  all_goals simp_all [scan5, rankStep, hlTab, p1Tab]

/-- `HoldemHand.rank` on five cards, with the scan replaced by its closed
forms: the flush chain, the straight checks, and the tabulated `high` and
`pairs[1]` lengths. -/
lemma rank5_eq (c0 c1 c2 c3 c4 : Card) :
    HoldemHand.rank [c0, c1, c2, c3, c4] =
      (if (decide (c1.suit = c0.suit) && decide (c2.suit = c1.suit) &&
            decide (c3.suit = c2.suit) && decide (c4.suit = c3.suit)) &&
          claimStraight c0 c1 c2 c3 c4 then
        if c1.value = Value.King then some .RoyalStraightFlush
        else some .StraightFlush
      else if decide (c1.suit = c0.suit) && decide (c2.suit = c1.suit) &&
          decide (c3.suit = c2.suit) && decide (c4.suit = c3.suit) then
        some .Flush
      else if claimStraight c0 c1 c2 c3 c4 then some .Straight
      else
        match hlTab (decide (c1.value = c0.value)) (decide (c2.value = c1.value))
            (decide (c3.value = c2.value)) (decide (c4.value = c3.value)) with
        | 5 => some .HighCard
        | 3 => some .Pair
        | 2 => some .Set
        | 1 =>
          if p1Tab (decide (c1.value = c0.value)) (decide (c2.value = c1.value))
              (decide (c3.value = c2.value)) (decide (c4.value = c3.value)) = 0
          then some .Bomb else some .TwoPair
        | 0 => some .FullHouse
        | _ => none) := by
  have hf := scan5_isFlush c0 c1 c2 c3 c4
  have hs := scan5_isStraight c0 c1 c2 c3 c4
  have hh := (scan5_high_pairs c0 c1 c2 c3 c4).1
  have hp := (scan5_high_pairs c0 c1 c2 c3 c4).2
  simp only [HoldemHand.rank, hf, hs, hh, hp]

/-- The run-length groups of five values have `gTab` many groups and largest
size `mTab`, over the adjacent value-equality bits. -/
lemma runCounts_closed (v0 v1 v2 v3 v4 : Value) :
    (runCounts [v0, v1, v2, v3, v4]).length =
      gTab (decide (v1 = v0)) (decide (v2 = v1))
        (decide (v3 = v2)) (decide (v4 = v3)) ∧
    maxCount (runCounts [v0, v1, v2, v3, v4]) =
      mTab (decide (v1 = v0)) (decide (v2 = v1))
        (decide (v3 = v2)) (decide (v4 = v3)) := by
  by_cases h1 : v1 = v0 <;> by_cases h2 : v2 = v1 <;>
    by_cases h3 : v3 = v2 <;> by_cases h4 : v4 = v3
  all_goals try subst h4
  all_goals try subst h3
  all_goals try subst h2
  all_goals try subst h1
  all_goals simp_all [runCounts, runCountsAux, maxCount, gTab, mTab]

/-- No value satisfies both sides of the wheel exception against itself, and
no value is its own successor: adjacent equal values fail the straight
check. -/
lemma adjacentOk_self (s t : Suit) (v : Value) :
    adjacentOk ⟨s, v⟩ ⟨t, v⟩ = false := by
  cases v <;> rfl

/-- The code's flush chain and the spec's anchored all-equal-suits condition
agree. -/
lemma flushChain_eq (s0 s1 s2 s3 s4 : Suit) (v0 v1 v2 v3 v4 : Value) :
    (decide (s1 = s0) && decide (s2 = s1) && decide (s3 = s2) &&
      decide (s4 = s3)) =
      claimFlush ⟨s0, v0⟩ ⟨s1, v1⟩ ⟨s2, v2⟩ ⟨s3, v3⟩ ⟨s4, v4⟩ := by
  simp only [claimFlush, ← Bool.decide_and]
  apply decide_eq_decide.2
  constructor
  · rintro ⟨⟨⟨a, b⟩, c⟩, d⟩
    exact ⟨a.symm, (b.trans a).symm, (c.trans (b.trans a)).symm,
      (d.trans (c.trans (b.trans a))).symm⟩
  · rintro ⟨a, b, c, d⟩
    exact ⟨⟨⟨a.symm, b.symm.trans a⟩, c.symm.trans b⟩, d.symm.trans c⟩

/-- Two distinct cards of the same value have distinct suits. -/
lemma card_suit_ne {s t : Suit} {v : Value}
    (h : (⟨s, v⟩ : Card) ≠ ⟨t, v⟩) : ¬s = t := by
  intro e
  exact h (by rw [e])

/-- Group count of five values, closed form. -/
lemma runCounts_len (v0 v1 v2 v3 v4 : Value) :
    (runCounts [v0, v1, v2, v3, v4]).length =
      gTab (decide (v1 = v0)) (decide (v2 = v1))
        (decide (v3 = v2)) (decide (v4 = v3)) :=
  (runCounts_closed v0 v1 v2 v3 v4).1

/-- Largest group of five values, closed form. -/
lemma runCounts_max (v0 v1 v2 v3 v4 : Value) :
    maxCount (runCounts [v0, v1, v2, v3, v4]) =
      mTab (decide (v1 = v0)) (decide (v2 = v1))
        (decide (v3 = v2)) (decide (v4 = v3)) :=
  (runCounts_closed v0 v1 v2 v3 v4).2

/-- Among any five suits, some pair coincides (there are only four). -/
lemma suit_pigeonhole (s0 s1 s2 s3 s4 : Suit) :
    s0 = s1 ∨ s0 = s2 ∨ s0 = s3 ∨ s0 = s4 ∨ s1 = s2 ∨ s1 = s3 ∨ s1 = s4 ∨
      s2 = s3 ∨ s2 = s4 ∨ s3 = s4 := by
  revert s0 s1 s2 s3 s4
  decide

/-- On five pairwise-distinct cards, `HoldemHand.rank` agrees with the
dispatch of claim C2 (this fails for repeated cards: a flush with a repeated
card has fewer than five groups, and the code's flush check fires first). -/
lemma rank_eq_claimRank5 (c0 c1 c2 c3 c4 : Card)
    (h01 : c0 ≠ c1) (h02 : c0 ≠ c2) (h03 : c0 ≠ c3) (h04 : c0 ≠ c4)
    (h12 : c1 ≠ c2) (h13 : c1 ≠ c3) (h14 : c1 ≠ c4)
    (h23 : c2 ≠ c3) (h24 : c2 ≠ c4) (h34 : c3 ≠ c4) :
    HoldemHand.rank [c0, c1, c2, c3, c4] = claimRank [c0, c1, c2, c3, c4] := by
  obtain ⟨s0, v0⟩ := c0
  obtain ⟨s1, v1⟩ := c1
  obtain ⟨s2, v2⟩ := c2
  obtain ⟨s3, v3⟩ := c3
  obtain ⟨s4, v4⟩ := c4
  by_cases hb1 : v1 = v0 <;> by_cases hb2 : v2 = v1 <;>
    by_cases hb3 : v3 = v2 <;> by_cases hb4 : v4 = v3
  all_goals try subst hb4
  all_goals try subst hb3
  all_goals try subst hb2
  all_goals try subst hb1
  -- goals are ordered by the bit pattern (b1, b2, b3, b4), `true` first
  · -- TTTT: five distinct cards of one value would need five distinct suits
    rcases suit_pigeonhole s0 s1 s2 s3 s4 with e | e | e | e | e | e | e | e | e | e <;>
      simp_all
  · -- TTTF: quad and a single, Bomb
    have hs : ¬s1 = s0 := card_suit_ne (Ne.symm h01)
    simp [rank5_eq, claimRank, runCounts_len, runCounts_max, gTab, mTab,
      hlTab, p1Tab, claimStraight, adjacentOk_self, hs, hb4]
  · -- TTFT: triple then pair, FullHouse
    have hs : ¬s1 = s0 := card_suit_ne (Ne.symm h01)
    simp [rank5_eq, claimRank, runCounts_len, runCounts_max, gTab, mTab,
      hlTab, p1Tab, claimStraight, adjacentOk_self, hs, hb3]
  · -- TTFF: triple and two singles, Set
    have hs : ¬s1 = s0 := card_suit_ne (Ne.symm h01)
    simp [rank5_eq, claimRank, runCounts_len, runCounts_max, gTab, mTab,
      hlTab, p1Tab, claimStraight, adjacentOk_self, hs, hb3, hb4]
  · -- TFTT: pair then triple, FullHouse
    have hs : ¬s1 = s0 := card_suit_ne (Ne.symm h01)
    simp [rank5_eq, claimRank, runCounts_len, runCounts_max, gTab, mTab,
      hlTab, p1Tab, claimStraight, adjacentOk_self, hs, hb2]
  · -- TFTF: two pairs and a single, TwoPair
    have hs : ¬s1 = s0 := card_suit_ne (Ne.symm h01)
    simp [rank5_eq, claimRank, runCounts_len, runCounts_max, gTab, mTab,
      hlTab, p1Tab, claimStraight, adjacentOk_self, hs, hb2, hb4]
  · -- TFFT: two pairs and a single, TwoPair
    have hs : ¬s1 = s0 := card_suit_ne (Ne.symm h01)
    simp [rank5_eq, claimRank, runCounts_len, runCounts_max, gTab, mTab,
      hlTab, p1Tab, claimStraight, adjacentOk_self, hs, hb2, hb3]
  · -- TFFF: one pair, Pair
    have hs : ¬s1 = s0 := card_suit_ne (Ne.symm h01)
    simp [rank5_eq, claimRank, runCounts_len, runCounts_max, gTab, mTab,
      hlTab, p1Tab, claimStraight, adjacentOk_self, hs, hb2, hb3, hb4]
  · -- FTTT: single then quad, Bomb
    have hs : ¬s2 = s1 := card_suit_ne (Ne.symm h12)
    simp [rank5_eq, claimRank, runCounts_len, runCounts_max, gTab, mTab,
      hlTab, p1Tab, claimStraight, adjacentOk_self, hs, hb1]
  · -- FTTF: single, triple, single, Set
    have hs : ¬s2 = s1 := card_suit_ne (Ne.symm h12)
    simp [rank5_eq, claimRank, runCounts_len, runCounts_max, gTab, mTab,
      hlTab, p1Tab, claimStraight, adjacentOk_self, hs, hb1, hb4]
  · -- FTFT: single then two pairs, TwoPair
    have hs : ¬s2 = s1 := card_suit_ne (Ne.symm h12)
    simp [rank5_eq, claimRank, runCounts_len, runCounts_max, gTab, mTab,
      hlTab, p1Tab, claimStraight, adjacentOk_self, hs, hb1, hb3]
  · -- FTFF: one pair, Pair
    have hs : ¬s2 = s1 := card_suit_ne (Ne.symm h12)
    simp [rank5_eq, claimRank, runCounts_len, runCounts_max, gTab, mTab,
      hlTab, p1Tab, claimStraight, adjacentOk_self, hs, hb1, hb3, hb4]
  · -- FFTT: two singles then a triple, Set
    have hs : ¬s3 = s2 := card_suit_ne (Ne.symm h23)
    simp [rank5_eq, claimRank, runCounts_len, runCounts_max, gTab, mTab,
      hlTab, p1Tab, claimStraight, adjacentOk_self, hs, hb1, hb2]
  · -- FFTF: one pair, Pair
    have hs : ¬s3 = s2 := card_suit_ne (Ne.symm h23)
    simp [rank5_eq, claimRank, runCounts_len, runCounts_max, gTab, mTab,
      hlTab, p1Tab, claimStraight, adjacentOk_self, hs, hb1, hb2, hb4]
  · -- FFFT: one pair, Pair
    have hs : ¬s4 = s3 := card_suit_ne (Ne.symm h34)
    simp [rank5_eq, claimRank, runCounts_len, runCounts_max, gTab, mTab,
      hlTab, p1Tab, claimStraight, adjacentOk_self, hs, hb1, hb2, hb3]
  · -- FFFF: five groups, flush/straight dispatch on both sides
    have hfl := flushChain_eq s0 s1 s2 s3 s4 v0 v1 v2 v3 v4
    simp [rank5_eq, claimRank, runCounts_len, runCounts_max, gTab,
      hlTab, hb1, hb2, hb3, hb4, hfl]

/-- A list of length five is a five-element literal. -/
lemma list_len5 {α : Type} {l : List α} (h : l.length = 5) :
    ∃ a b c d e, l = [a, b, c, d, e] := by
  rcases l with _ | ⟨a, _ | ⟨b, _ | ⟨c, _ | ⟨d, _ | ⟨e, _ | ⟨f, t⟩⟩⟩⟩⟩⟩
  · simp at h
  · simp at h
  · simp at h
  · simp at h
  · simp at h
  · exact ⟨a, b, c, d, e, rfl⟩
  · simp at h

/-- Sorting preserves length and distinctness; transport
`rank_eq_claimRank5` along `HoldemHand.new`. -/
lemma rank_new_eq_claimRank (cards : List Card) (hlen : cards.length = 5)
    (hnd : cards.Nodup) :
    HoldemHand.rank (HoldemHand.new cards) =
      claimRank (HoldemHand.new cards) := by
  have hperm : List.Perm (HoldemHand.new cards) cards := List.perm_insertionSort _ _
  have hlen5 : (HoldemHand.new cards).length = 5 := hperm.length_eq.trans hlen
  have hnd5 : (HoldemHand.new cards).Nodup := hperm.nodup_iff.2 hnd
  obtain ⟨a, b, c, d, e, hE⟩ := list_len5 hlen5
  rw [hE] at hnd5 ⊢
  obtain ⟨ha, h5⟩ := List.pairwise_cons.1 hnd5
  obtain ⟨hb, h6⟩ := List.pairwise_cons.1 h5
  obtain ⟨hc, h7⟩ := List.pairwise_cons.1 h6
  obtain ⟨hd, -⟩ := List.pairwise_cons.1 h7
  exact rank_eq_claimRank5 a b c d e
    (ha b (by simp)) (ha c (by simp)) (ha d (by simp)) (ha e (by simp))
    (hb c (by simp)) (hb d (by simp)) (hb e (by simp))
    (hc d (by simp)) (hc e (by simp)) (hd e (by simp))

/-- Every value of `hlTab` is one of 0, 1, 2, 3, 5. -/
lemma hlTab_cases (b1 b2 b3 b4 : Bool) :
    hlTab b1 b2 b3 b4 = 0 ∨ hlTab b1 b2 b3 b4 = 1 ∨ hlTab b1 b2 b3 b4 = 2 ∨
      hlTab b1 b2 b3 b4 = 3 ∨ hlTab b1 b2 b3 b4 = 5 := by
  revert b1 b2 b3 b4
  decide

/-- `HoldemHand.rank` always classifies five cards (the wildcard `panic!`
arm is unreachable). -/
lemma rank5_isSome (c0 c1 c2 c3 c4 : Card) :
    (HoldemHand.rank [c0, c1, c2, c3, c4]).isSome = true := by
  rw [rank5_eq]
  rcases hlTab_cases (decide (c1.value = c0.value)) (decide (c2.value = c1.value))
      (decide (c3.value = c2.value)) (decide (c4.value = c3.value)) with
    h5 | h5 | h5 | h5 | h5 <;> rw [h5] <;> split_ifs <;> simp

/-! ## Claim theorems -/

/-- Claim C1, counterexample: both "As 5c 4d 3h 2s" and "6c 5h 4d 3s 2c"
classify as `Straight`, and the code's payload-free `Rank` order does not
place the first strictly below the second — the two ranks are equal, so the
claimed strict comparison fails. -/
theorem claim_C1_counterexample :
    ∃ h1 h2 : List Card,
      HoldemHand.tryFrom ("As 5c 4d 3h 2s".toList) = .ok h1 ∧
      HoldemHand.tryFrom ("6c 5h 4d 3s 2c".toList) = .ok h2 ∧
      HoldemHand.rank h1 = some Rank.Straight ∧
      HoldemHand.rank h2 = some Rank.Straight ∧
      ¬Rank.lt Rank.Straight Rank.Straight :=
  ⟨_, _, rfl, rfl, rfl, rfl, by decide⟩

/-- Claim C1 as amended: the wheel hand "As 5c 4d 3h 2s" classifies as
`Straight` (the Ace-to-Five adjacency is accepted), "6c 5h 4d 3s 2c"
classifies as `Straight`, and since the code's `Rank` carries no tie-break
payload the two ranks are equal rather than strictly ordered. -/
theorem claim_C1_theorem :
    ∃ h1 h2 : List Card,
      HoldemHand.tryFrom ("As 5c 4d 3h 2s".toList) = .ok h1 ∧
      HoldemHand.tryFrom ("6c 5h 4d 3s 2c".toList) = .ok h2 ∧
      HoldemHand.rank h1 = some Rank.Straight ∧
      HoldemHand.rank h2 = some Rank.Straight ∧
      HoldemHand.rank h1 = HoldemHand.rank h2 :=
  ⟨_, _, rfl, rfl, rfl, rfl, rfl⟩

/-- Claim C2, counterexample: the duplicate-card hand "2c 2c 3c 4c 5c" has
four value groups, so the claimed dispatch prescribes `Pair`, but the code
returns `Flush` (the flush early-return precedes the group dispatch). -/
theorem claim_C2_counterexample :
    ∃ h : List Card,
      HoldemHand.tryFrom ("2c 2c 3c 4c 5c".toList) = .ok h ∧
      HoldemHand.rank h = some Rank.Flush ∧
      claimRank h = some Rank.Pair ∧
      Rank.Flush ≠ Rank.Pair :=
  ⟨_, rfl, rfl, rfl, by decide⟩

/-- Claim C2 as amended: for every hand of five pairwise-distinct cards,
`rank()` returns exactly the category prescribed by the claimed dispatch on
(number of distinct value groups, `is_flush`, `is_straight`), with the
claimed straight detection (adjacent values descending by one, with the
single Ace-then-Five adjacency accepted). -/
theorem claim_C2_theorem :
    ∀ cards : List Card, cards.length = 5 → cards.Nodup →
      HoldemHand.rank (HoldemHand.new cards) =
        claimRank (HoldemHand.new cards) :=
  fun cards hl hnd => rank_new_eq_claimRank cards hl hnd

/-- Witness for claim C2's theorem at a concrete five-card hand. -/
theorem claim_C2_witness :
    HoldemHand.rank (HoldemHand.new
      [⟨Suit.Club, Value.Two⟩, ⟨Suit.Heart, Value.Three⟩,
       ⟨Suit.Diamond, Value.Ace⟩, ⟨Suit.Spade, Value.King⟩,
       ⟨Suit.Spade, Value.Ten⟩]) =
      claimRank (HoldemHand.new
        [⟨Suit.Club, Value.Two⟩, ⟨Suit.Heart, Value.Three⟩,
         ⟨Suit.Diamond, Value.Ace⟩, ⟨Suit.Spade, Value.King⟩,
         ⟨Suit.Spade, Value.Ten⟩]) :=
  claim_C2_theorem
    [⟨Suit.Club, Value.Two⟩, ⟨Suit.Heart, Value.Three⟩,
     ⟨Suit.Diamond, Value.Ace⟩, ⟨Suit.Spade, Value.King⟩,
     ⟨Suit.Spade, Value.Ten⟩] (by decide) (by decide)

/-- Claim C3: the singles list `high` collected by the scan always has
length 0, 1, 2, 3 or 5, and `rank()` never reaches the `panic!` arm: on
every five-card hand it returns a rank. -/
theorem claim_C3_theorem :
    (∀ c0 c1 c2 c3 c4 : Card,
      (scan5 c0 c1 c2 c3 c4).high.length = 0 ∨
      (scan5 c0 c1 c2 c3 c4).high.length = 1 ∨
      (scan5 c0 c1 c2 c3 c4).high.length = 2 ∨
      (scan5 c0 c1 c2 c3 c4).high.length = 3 ∨
      (scan5 c0 c1 c2 c3 c4).high.length = 5) ∧
    (∀ cards : List Card, cards.length = 5 →
      (HoldemHand.rank (HoldemHand.new cards)).isSome = true) := by
  constructor
  · intro c0 c1 c2 c3 c4
    rw [(scan5_high_pairs c0 c1 c2 c3 c4).1]
    exact hlTab_cases _ _ _ _
  · intro cards hlen
    have hlen5 : (HoldemHand.new cards).length = 5 :=
      (List.perm_insertionSort cardGe cards).length_eq.trans hlen
    obtain ⟨a, b, c, d, e, hE⟩ := list_len5 hlen5
    rw [hE]
    exact rank5_isSome a b c d e

/-- Witness for claim C3's theorem at a concrete five-card hand. -/
theorem claim_C3_witness :
    ([⟨Suit.Club, Value.Two⟩, ⟨Suit.Club, Value.Three⟩,
      ⟨Suit.Club, Value.Four⟩, ⟨Suit.Club, Value.Five⟩,
      ⟨Suit.Club, Value.Six⟩] : List Card).length = 5 ∧
    (HoldemHand.rank (HoldemHand.new
      [⟨Suit.Club, Value.Two⟩, ⟨Suit.Club, Value.Three⟩,
       ⟨Suit.Club, Value.Four⟩, ⟨Suit.Club, Value.Five⟩,
       ⟨Suit.Club, Value.Six⟩])).isSome = true :=
  ⟨by decide, claim_C3_theorem.2
    [⟨Suit.Club, Value.Two⟩, ⟨Suit.Club, Value.Three⟩,
     ⟨Suit.Club, Value.Four⟩, ⟨Suit.Club, Value.Five⟩,
     ⟨Suit.Club, Value.Six⟩] (by decide)⟩

/-- Claim C8: the derived order on the payload-free `Rank` categories is the
strict chain RoyalStraightFlush > StraightFlush > Bomb > FullHouse > Flush >
Straight > Set > TwoPair > Pair > HighCard; in particular four of a kind
(`Bomb`) beats `FullHouse`. -/
theorem claim_C8_theorem :
    Rank.lt Rank.StraightFlush Rank.RoyalStraightFlush ∧
    Rank.lt Rank.Bomb Rank.StraightFlush ∧
    Rank.lt Rank.FullHouse Rank.Bomb ∧
    Rank.lt Rank.Flush Rank.FullHouse ∧
    Rank.lt Rank.Straight Rank.Flush ∧
    Rank.lt Rank.Set Rank.Straight ∧
    Rank.lt Rank.TwoPair Rank.Set ∧
    Rank.lt Rank.Pair Rank.TwoPair ∧
    Rank.lt Rank.HighCard Rank.Pair := by
  decide

/-- Claim C9: the duplicate-card input "2c 2c 3c 3s 2h" parses successfully
into a five-card hand (no duplicate validation) and is ranked like any other
hand, here as a full house. -/
theorem claim_C9_theorem :
    ∃ h : List Card,
      HoldemHand.tryFrom ("2c 2c 3c 3s 2h".toList) = .ok h ∧
      h.length = 5 ∧ HoldemHand.rank h = some Rank.FullHouse :=
  ⟨_, rfl, rfl, rfl⟩

/-- Claim C10: `Value::from(u8)` indexes the array `[Ace, Two, ..., King]`,
so it is not the inverse of `Value::value` (`from(2)` is `Three` while
`Two.value()` is `2`), and any index at or above 13 panics (modelled as
`none`). -/
theorem claim_C10_theorem :
    (∀ n : Nat, ∀ h : n < 13,
      Value.fromU8 n =
        some (Value.valuesList.get
          ⟨n, by simpa [Value.valuesList] using h⟩)) ∧
    Value.fromU8 2 = some Value.Three ∧
    Value.value Value.Two = 2 ∧
    Value.Three ≠ Value.Two ∧
    (∀ n : Nat, 13 ≤ n → Value.fromU8 n = none) := by
  refine ⟨?_, rfl, rfl, by decide, ?_⟩
  · intro n h
    have hlt : n < Value.valuesList.length := by
      simpa [Value.valuesList] using h
    rw [Value.fromU8, List.getElem?_eq_getElem hlt]
    simp
  · intro n h
    rw [Value.fromU8]
    apply List.getElem?_eq_none
    simpa [Value.valuesList] using h

/-- Witness for claim C10's theorem at the concrete indices 2 and 13. -/
theorem claim_C10_witness :
    Value.fromU8 2 =
      some (Value.valuesList.get ⟨2, by simp [Value.valuesList]⟩) ∧
    Value.fromU8 13 = none :=
  ⟨claim_C10_theorem.1 2 (by decide), claim_C10_theorem.2.2.2.2 13 (by decide)⟩

/-- A `Suit` parse failure always reports `BadSuit` of the original token. -/
lemma suitErr {s : List Char} {e : Error} (h : Suit.tryFrom s = .error e) :
    e = .BadSuit s := by
  unfold Suit.tryFrom at h
  cases hx : List.lookup (toLowerStr s) suitLookup with
  | some su => rw [hx] at h; cases h
  | none =>
    rw [hx] at h
    injection h with h2
    exact h2.symm

/-- A `Value` parse failure always reports `BadValue` of the original
token. -/
lemma valueErr {v : List Char} {e : Error} (h : Value.tryFrom v = .error e) :
    e = .BadValue v := by
  unfold Value.tryFrom at h
  cases hx : List.lookup (toLowerStr v) valueLookup with
  | some va => rw [hx] at h; cases h
  | none =>
    rw [hx] at h
    injection h with h2
    exact h2.symm

/-- Claim C5: a token fails with `BadCard "invalid length"` exactly when its
length is neither 2 nor 3; on a well-sized token the trailing character is
parsed as the suit first, so when both the suit character and the value
prefix are invalid the suit error is reported. -/
theorem claim_C5_theorem :
    ∀ t : List Char,
      (Card.tryFrom t = .error (.BadCard ("invalid length".toList)) ↔
        (t.length ≠ 2 ∧ t.length ≠ 3)) ∧
      (∀ e1 e2 : Error,
        Suit.tryFrom (t.drop (t.length - 1)) = .error e1 →
        Value.tryFrom (t.take (t.length - 1)) = .error e2 →
        (t.length = 2 ∨ t.length = 3) →
        Card.tryFrom t = .error (.BadSuit (t.drop (t.length - 1)))) := by
  intro t
  constructor
  · constructor
    · intro h
      by_cases hl : t.length ≠ 2 ∧ t.length ≠ 3
      · exact hl
      · exfalso
        simp only [Card.tryFrom, if_neg hl] at h
        cases hs : Suit.tryFrom (t.drop (t.length - 1)) with
        | error e =>
          rw [hs] at h
          have he := suitErr hs
          subst he
          exact Error.noConfusion (Except.error.inj h)
        | ok su =>
          rw [hs] at h
          cases hv : Value.tryFrom (t.take (t.length - 1)) with
          | error e =>
            rw [hv] at h
            have he := valueErr hv
            subst he
            exact Error.noConfusion (Except.error.inj h)
          | ok va => rw [hv] at h; cases h
    · intro hl
      simp only [Card.tryFrom, if_pos hl]
  · intro e1 e2 hs hv hl
    have hcond : ¬(t.length ≠ 2 ∧ t.length ≠ 3) := by
      rcases hl with h | h <;> simp [h]
    simp only [Card.tryFrom, if_neg hcond, hs]
    rw [suitErr hs]

/-- Witness for claim C5's theorem at the concrete tokens "100D" (bad
length) and "pk" (bad suit and bad value, suit error wins). -/
theorem claim_C5_witness :
    Card.tryFrom ("100D".toList) =
      .error (.BadCard ("invalid length".toList)) ∧
    Card.tryFrom ("pk".toList) = .error (.BadSuit ['k']) :=
  ⟨(claim_C5_theorem ("100D".toList)).1.2 (by decide),
    (claim_C5_theorem ("pk".toList)).2 (.BadSuit ['k']) (.BadValue ['p'])
      rfl rfl (Or.inl (by decide))⟩

/-- `collect::<Result>` stops at the first failing token and returns its
error. -/
lemma parseCards_error (pre : List (List Char)) (t : List Char)
    (post : List (List Char)) (e : Error)
    (hok : ∀ u ∈ pre, (Card.tryFrom u).isOk = true)
    (ht : Card.tryFrom t = .error e) :
    parseCards (pre ++ t :: post) = .error e := by
  induction pre with
  | nil => simp [parseCards, ht]
  | cons u us ih =>
    have hu : (Card.tryFrom u).isOk = true := hok u (by simp)
    cases hcu : Card.tryFrom u with
    | error e2 => rw [hcu] at hu; simp [Except.isOk, Except.toBool] at hu
    | ok c =>
      simp only [List.cons_append, List.append_eq, parseCards, hcu]
      rw [ih (fun u2 hu2 => hok u2 (by simp [hu2]))]

/-- When every token parses, `collect::<Result>` returns the list of parsed
cards. -/
lemma parseCards_ok_map (ts : List (List Char))
    (hok : ∀ u ∈ ts, (Card.tryFrom u).isOk = true) :
    parseCards ts = .ok (ts.map (fun u => okCard (Card.tryFrom u))) := by
  induction ts with
  | nil => rfl
  | cons u us ih =>
    have hu : (Card.tryFrom u).isOk = true := hok u (by simp)
    cases hcu : Card.tryFrom u with
    | error e2 => rw [hcu] at hu; simp [Except.isOk, Except.toBool] at hu
    | ok c =>
      simp only [parseCards, List.map_cons, hcu, okCard]
      rw [ih (fun u2 hu2 => hok u2 (by simp [hu2]))]
      rfl

/-- A single-card parse never produces the hand-level count error. -/
lemma cardErr_not_count {t : List Char} {e : Error}
    (h : Card.tryFrom t = .error e) :
    e ≠ .BadCard ("invalid number of cards".toList) := by
  unfold Card.tryFrom at h
  by_cases hl : t.length ≠ 2 ∧ t.length ≠ 3
  · rw [if_pos hl] at h
    injection h with h2
    subst h2
    decide
  · rw [if_neg hl] at h
    cases hs : Suit.tryFrom (t.drop (t.length - 1)) with
    | error e2 =>
      rw [hs] at h
      injection h with h2
      subst h2
      rw [suitErr hs]
      intro hx
      cases hx
    | ok su =>
      rw [hs] at h
      cases hv : Value.tryFrom (t.take (t.length - 1)) with
      | error e2 =>
        rw [hv] at h
        injection h with h2
        subst h2
        rw [valueErr hv]
        intro hx
        cases hx
      | ok va => rw [hv] at h; cases h

/-- A failing `collect::<Result>` reports the error of one of its tokens. -/
lemma parseCards_error_mem {ts : List (List Char)} {e : Error}
    (h : parseCards ts = .error e) :
    ∃ t ∈ ts, Card.tryFrom t = .error e := by
  induction ts with
  | nil => cases h
  | cons u us ih =>
    unfold parseCards at h
    cases hcu : Card.tryFrom u with
    | error e2 =>
      rw [hcu] at h
      injection h with h2
      exact ⟨u, by simp, h2 ▸ hcu⟩
    | ok c =>
      rw [hcu] at h
      cases hrest : parseCards us with
      | error e2 =>
        rw [hrest] at h
        injection h with h2
        obtain ⟨t, ht, he⟩ := ih (h2 ▸ hrest)
        exact ⟨t, by simp [ht], he⟩
      | ok cs => rw [hrest] at h; cases h

/-- A successful `collect::<Result>` means every token parsed. -/
lemma parseCards_ok_forall {ts : List (List Char)} {cs : List Card}
    (h : parseCards ts = .ok cs) :
    ∀ t ∈ ts, (Card.tryFrom t).isOk = true := by
  induction ts generalizing cs with
  | nil => intro t ht; cases ht
  | cons u us ih =>
    unfold parseCards at h
    cases hcu : Card.tryFrom u with
    | error e2 => rw [hcu] at h; cases h
    | ok c =>
      rw [hcu] at h
      cases hrest : parseCards us with
      | error e2 => rw [hrest] at h; cases h
      | ok cs2 =>
        intro t ht
        rcases List.mem_cons.mp ht with rfl | hm
        · simp [hcu, Except.isOk, Except.toBool]
        · exact ih hrest t hm

/-- Claim C4: hand parsing is fail-fast — the first failing token's specific
error is returned — and the card count is checked only after all tokens
parse, yielding `BadCard "invalid number of cards"` exactly when all tokens
parse and the count is not five; with the three concrete behaviours from the
claim. -/
theorem claim_C4_theorem :
    (∀ input : List Char, ∀ pre : List (List Char), ∀ t : List Char,
      ∀ post : List (List Char), ∀ e : Error,
      splitWS input = pre ++ t :: post →
      (∀ u ∈ pre, (Card.tryFrom u).isOk = true) →
      Card.tryFrom t = .error e →
      HoldemHand.tryFrom input = .error e) ∧
    (∀ input : List Char,
      (∀ u ∈ splitWS input, (Card.tryFrom u).isOk = true) →
      (splitWS input).length ≠ 5 →
      HoldemHand.tryFrom input =
        .error (.BadCard ("invalid number of cards".toList))) ∧
    (∀ input : List Char,
      HoldemHand.tryFrom input =
        .error (.BadCard ("invalid number of cards".toList)) →
      (∀ u ∈ splitWS input, (Card.tryFrom u).isOk = true) ∧
        (splitWS input).length ≠ 5) ∧
    HoldemHand.tryFrom ("2c 3c 4c 5c 6c 7c".toList) =
      .error (.BadCard ("invalid number of cards".toList)) ∧
    HoldemHand.tryFrom ("2k 3c 4c 5c 6c".toList) = .error (.BadSuit ['k']) ∧
    HoldemHand.tryFrom ("1s 3c 4c 5c 6c".toList) =
      .error (.BadValue ['1']) := by
  refine ⟨?_, ?_, ?_, rfl, rfl, rfl⟩
  · intro input pre t post e hsplit hok ht
    unfold HoldemHand.tryFrom
    rw [hsplit, parseCards_error pre t post e hok ht]
  · intro input hok hlen
    unfold HoldemHand.tryFrom
    rw [parseCards_ok_map _ hok]
    simp only [List.length_map]
    rw [if_pos hlen]
  · intro input h
    unfold HoldemHand.tryFrom at h
    cases hp : parseCards (splitWS input) with
    | error e =>
      rw [hp] at h
      injection h with h2
      obtain ⟨t, ht, he⟩ := parseCards_error_mem hp
      exact absurd h2 (cardErr_not_count he)
    | ok cs =>
      rw [hp] at h
      dsimp only at h
      have hok := parseCards_ok_forall hp
      refine ⟨hok, ?_⟩
      have hmap := parseCards_ok_map _ hok
      rw [hp] at hmap
      injection hmap with hcs
      by_cases hc : cs.length ≠ 5
      · rw [hcs] at hc
        simpa using hc
      · rw [if_neg hc] at h
        cases h

/-- Witness for claim C4's theorem: the very first token of
"2k 3c 4c 5c 6c" fails with `BadSuit "k"`, which the hand parse reports. -/
theorem claim_C4_witness :
    HoldemHand.tryFrom ("2k 3c 4c 5c 6c".toList) = .error (.BadSuit ['k']) :=
  claim_C4_theorem.1 ("2k 3c 4c 5c 6c".toList) [] ("2k".toList)
    ["3c".toList, "4c".toList, "5c".toList, "6c".toList] (.BadSuit ['k'])
    (by decide) (by simp) rfl

/-- Claim C6: parsing a card's display round-trips, for all 52 suit/value
combinations. -/
theorem claim_C6_theorem :
    ∀ s : Suit, ∀ v : Value,
      Card.tryFrom (Card.display ⟨s, v⟩) = .ok ⟨s, v⟩ := by
  intro s v
  cases s <;> cases v <;> rfl

/-! ## Permutation invariance (claim C7) -/

/-- A successful association-list lookup means the key matched some entry. -/
lemma lookup_key_mem {α β : Type} [BEq α] {l : List (α × β)} {a : α} {b : β}
    (h : List.lookup a l = some b) : ∃ p ∈ l, (a == p.1) = true := by
  induction l with
  | nil => cases h
  | cons hd tl ih =>
    by_cases hb : (a == hd.1) = true
    · exact ⟨hd, by simp, hb⟩
    · rw [List.lookup, Bool.of_not_eq_true hb] at h
      obtain ⟨p, hp, hbp⟩ := ih h
      exact ⟨p, by simp [hp], hbp⟩

/-- A character whose lowercasing is a token character is not whitespace. -/
lemma char_not_ws {c : Char} (h : Char.toLower c ∈ allowedChars) :
    c.isWhitespace = false := by
  unfold Char.toLower at h
  by_cases hr : c.toNat ≥ 65 ∧ c.toNat ≤ 90
  · simp only [Char.isWhitespace]
    have h1 : ¬c = ' ' := by rintro rfl; revert hr; decide
    have h2 : ¬c = '\t' := by rintro rfl; revert hr; decide
    have h3 : ¬c = '\r' := by rintro rfl; revert hr; decide
    have h4 : ¬c = '\n' := by rintro rfl; revert hr; decide
    simp [h1, h2, h3, h4]
  · rw [if_neg hr] at h
    simp only [allowedChars, List.mem_cons, List.not_mem_nil, or_false] at h
    rcases h with rfl | rfl | rfl | rfl | rfl | rfl | rfl | rfl | rfl | rfl |
      rfl | rfl | rfl | rfl | rfl | rfl | rfl | rfl <;> rfl

/-- A successfully parsed suit token consists of allowed characters. -/
lemma suit_ok_chars {s : List Char} {su : Suit}
    (h : Suit.tryFrom s = .ok su) :
    ∀ ch ∈ s, Char.toLower ch ∈ allowedChars := by
  unfold Suit.tryFrom at h
  cases hx : List.lookup (toLowerStr s) suitLookup with
  | none => rw [hx] at h; cases h
  | some su2 =>
    obtain ⟨p, hp, hbeq⟩ := lookup_key_mem hx
    have heq : toLowerStr s = p.1 := eq_of_beq hbeq
    intro ch hch
    have hmem : Char.toLower ch ∈ toLowerStr s :=
      List.mem_map_of_mem Char.toLower hch
    rw [heq] at hmem
    simp only [suitLookup, suitStrings, Suit.valuesList, List.zip, 
      List.zipWith, List.mem_cons, List.not_mem_nil, or_false] at hp
    rcases hp with rfl | rfl | rfl | rfl <;> simp_all [allowedChars]

/-- A successfully parsed value token consists of allowed characters. -/
lemma value_ok_chars {v : List Char} {va : Value}
    (h : Value.tryFrom v = .ok va) :
    ∀ ch ∈ v, Char.toLower ch ∈ allowedChars := by
  unfold Value.tryFrom at h
  cases hx : List.lookup (toLowerStr v) valueLookup with
  | none => rw [hx] at h; cases h
  | some va2 =>
    obtain ⟨p, hp, hbeq⟩ := lookup_key_mem hx
    have heq : toLowerStr v = p.1 := eq_of_beq hbeq
    intro ch hch
    have hmem : Char.toLower ch ∈ toLowerStr v :=
      List.mem_map_of_mem Char.toLower hch
    rw [heq] at hmem
    simp only [valueLookup, valueStrings, Value.valuesList, List.zip,
      List.zipWith, List.mem_cons, List.not_mem_nil, or_false] at hp
    rcases hp with rfl | rfl | rfl | rfl | rfl | rfl | rfl | rfl | rfl |
      rfl | rfl | rfl | rfl <;> (simp_all [allowedChars]; try tauto)

/-- A successful `Except` is an `ok`. -/
lemma isOk_exists {ε α : Type} {r : Except ε α} (h : r.isOk = true) :
    ∃ a, r = .ok a := by
  cases r with
  | error e => simp [Except.isOk, Except.toBool] at h
  | ok a => exact ⟨a, rfl⟩

/-- A token that parses as a card is nonempty and whitespace-free. -/
lemma token_ok_wf {t : List Char} {c : Card} (h : Card.tryFrom t = .ok c) :
    t ≠ [] ∧ ∀ ch ∈ t, ch.isWhitespace = false := by
  unfold Card.tryFrom at h
  by_cases hl : t.length ≠ 2 ∧ t.length ≠ 3
  · rw [if_pos hl] at h; cases h
  · rw [if_neg hl] at h
    have hlen : t.length = 2 ∨ t.length = 3 :=
      (not_and_or.mp hl).imp not_not.mp not_not.mp
    have hne : t ≠ [] := by
      rintro rfl
      rcases hlen with h2 | h2 <;> simp at h2
    cases hs : Suit.tryFrom (t.drop (t.length - 1)) with
    | error e => rw [hs] at h; cases h
    | ok su =>
      rw [hs] at h
      cases hv : Value.tryFrom (t.take (t.length - 1)) with
      | error e => rw [hv] at h; cases h
      | ok va =>
        refine ⟨hne, fun ch hch => ?_⟩
        have := List.take_append_drop (t.length - 1) t
        have hsplit : ch ∈ t.take (t.length - 1) ∨ ch ∈ t.drop (t.length - 1) := by
          rw [← this] at hch
          exact List.mem_append.mp hch
        rcases hsplit with hm | hm
        · exact char_not_ws (value_ok_chars hv ch hm)
        · exact char_not_ws (suit_ok_chars hs ch hm)

/-- The whitespace splitter never produces an empty group list. -/
lemma splitWSAux_ne_nil (l : List Char) : splitWSAux l ≠ [] := by
  cases l with
  | nil => simp [splitWSAux]
  | cons c rest =>
    simp only [splitWSAux]
    split <;> simp

/-- Prepending a whitespace-free token extends the first group. -/
lemma splitWSAux_append (t l : List Char)
    (hws : ∀ ch ∈ t, ch.isWhitespace = false) :
    splitWSAux (t ++ l) =
      (t ++ (splitWSAux l).headD []) :: (splitWSAux l).tail := by
  induction t with
  | nil =>
    cases hx : splitWSAux l with
    | nil => exact absurd hx (splitWSAux_ne_nil l)
    | cons a t2 => simp [hx]
  | cons c t ih =>
    have hc : c.isWhitespace = false := hws c (by simp)
    simp only [List.cons_append, splitWSAux, hc, List.append_eq]
    rw [ih (fun ch h => hws ch (by simp [h]))]
    simp

/-- Splitting the space-joined tokens recovers the tokens, provided every
token is nonempty and whitespace-free. -/
lemma splitWS_join (ts : List (List Char))
    (h : ∀ t ∈ ts, t ≠ [] ∧ ∀ ch ∈ t, ch.isWhitespace = false) :
    splitWS (joinWS ts) = ts := by
  induction ts with
  | nil => rfl
  | cons t ts ih =>
    cases ts with
    | nil =>
      have h1 := h t (by simp)
      show splitWS (joinWS [t]) = [t]
      have : joinWS [t] = t ++ [] := by simp [joinWS]
      rw [this]
      unfold splitWS
      rw [splitWSAux_append t [] h1.2]
      simp [splitWSAux, h1.1]
    | cons t2 ts2 =>
      have h1 := h t (by simp)
      have hJ : joinWS (t :: t2 :: ts2) = t ++ ' ' :: joinWS (t2 :: ts2) := rfl
      rw [hJ]
      unfold splitWS
      rw [splitWSAux_append t (' ' :: joinWS (t2 :: ts2)) h1.2]
      have hsp : splitWSAux (' ' :: joinWS (t2 :: ts2)) =
          [] :: splitWSAux (joinWS (t2 :: ts2)) := by
        simp [splitWSAux]
      rw [hsp]
      simp only [List.headD_cons, List.tail_cons, List.append_nil]
      have ih2 := ih (fun u hu => h u (by simp [hu]))
      unfold splitWS at ih2
      simp only [List.filter_cons]
      rw [ih2]
      simp [h1.1, List.isEmpty_eq_true]

/-- The value sequence of a sorted hand is sorted. -/
lemma sorted_map_val (l : List Card) :
    List.Sorted valGe ((HoldemHand.new l).map Card.value) := by
  have hs : List.Sorted cardGe (HoldemHand.new l) :=
    List.sorted_insertionSort cardGe l
  exact (List.pairwise_map).mpr hs

/-- Permuted card lists sort to the same value sequence. -/
lemma newCards_map_val_eq {l1 l2 : List Card} (hp : List.Perm l1 l2) :
    (HoldemHand.new l1).map Card.value =
      (HoldemHand.new l2).map Card.value := by
  have hperm : List.Perm ((HoldemHand.new l1).map Card.value)
      ((HoldemHand.new l2).map Card.value) :=
    List.Perm.map Card.value
      (((List.perm_insertionSort cardGe l1).trans hp).trans
        (List.perm_insertionSort cardGe l2).symm)
  exact List.eq_of_perm_of_sorted hperm (sorted_map_val l1) (sorted_map_val l2)

/-- The code's flush chain is equivalent to all pairs of cards sharing a
suit. -/
lemma chain_iff_allpairs (c0 c1 c2 c3 c4 : Card) :
    (((c1.suit = c0.suit ∧ c2.suit = c1.suit) ∧ c3.suit = c2.suit) ∧
      c4.suit = c3.suit) ↔
      ∀ a ∈ [c0, c1, c2, c3, c4], ∀ b ∈ [c0, c1, c2, c3, c4],
        a.suit = b.suit := by
  constructor
  · rintro ⟨⟨⟨h1, h2⟩, h3⟩, h4⟩ a ha b hb
    have key : ∀ p ∈ [c0, c1, c2, c3, c4], p.suit = c0.suit := by
      intro p hp
      simp only [List.mem_cons, List.not_mem_nil, or_false] at hp
      rcases hp with rfl | rfl | rfl | rfl | rfl
      · rfl
      · exact h1
      · exact h2.trans h1
      · exact h3.trans (h2.trans h1)
      · exact h4.trans (h3.trans (h2.trans h1))
    exact (key a ha).trans (key b hb).symm
  · intro h
    exact ⟨⟨⟨h c1 (by simp) c0 (by simp), h c2 (by simp) c1 (by simp)⟩,
      h c3 (by simp) c2 (by simp)⟩, h c4 (by simp) c3 (by simp)⟩

/-- `HoldemHand.rank` is determined by the value sequence and the
all-suits-equal predicate of the five sorted cards. -/
lemma rank_congr5 (a0 a1 a2 a3 a4 b0 b1 b2 b3 b4 : Card)
    (hv0 : a0.value = b0.value) (hv1 : a1.value = b1.value)
    (hv2 : a2.value = b2.value) (hv3 : a3.value = b3.value)
    (hv4 : a4.value = b4.value)
    (hall : (∀ a ∈ [a0, a1, a2, a3, a4], ∀ b ∈ [a0, a1, a2, a3, a4],
        a.suit = b.suit) ↔
      (∀ a ∈ [b0, b1, b2, b3, b4], ∀ b ∈ [b0, b1, b2, b3, b4],
        a.suit = b.suit)) :
    HoldemHand.rank [a0, a1, a2, a3, a4] =
      HoldemHand.rank [b0, b1, b2, b3, b4] := by
  have hFA : (decide (a1.suit = a0.suit) && decide (a2.suit = a1.suit) &&
      decide (a3.suit = a2.suit) && decide (a4.suit = a3.suit)) =
      (decide (b1.suit = b0.suit) && decide (b2.suit = b1.suit) &&
        decide (b3.suit = b2.suit) && decide (b4.suit = b3.suit)) := by
    simp only [← Bool.decide_and]
    exact decide_eq_decide.2
      ((chain_iff_allpairs a0 a1 a2 a3 a4).trans
        (hall.trans (chain_iff_allpairs b0 b1 b2 b3 b4).symm))
  have hS : claimStraight a0 a1 a2 a3 a4 = claimStraight b0 b1 b2 b3 b4 := by
    simp only [claimStraight, adjacentOk, hv0, hv1, hv2, hv3, hv4]
  rw [rank5_eq, rank5_eq, hFA, hS, hv0, hv1, hv2, hv3, hv4]

/-- Sorting and ranking permuted five-card lists yields the same rank. -/
lemma rank_new_perm {l1 l2 : List Card} (hp : List.Perm l1 l2)
    (hlen : l1.length = 5) :
    HoldemHand.rank (HoldemHand.new l1) =
      HoldemHand.rank (HoldemHand.new l2) := by
  have hv := newCards_map_val_eq hp
  have hsort : List.Perm (HoldemHand.new l1) (HoldemHand.new l2) :=
    ((List.perm_insertionSort cardGe l1).trans hp).trans
      (List.perm_insertionSort cardGe l2).symm
  have hlen1 : (HoldemHand.new l1).length = 5 :=
    (List.perm_insertionSort cardGe l1).length_eq.trans hlen
  have hlen2 : (HoldemHand.new l2).length = 5 :=
    hsort.symm.length_eq.trans hlen1
  obtain ⟨a0, a1, a2, a3, a4, hE1⟩ := list_len5 hlen1
  obtain ⟨b0, b1, b2, b3, b4, hE2⟩ := list_len5 hlen2
  rw [hE1, hE2] at hv hsort
  rw [hE1, hE2]
  simp only [List.map_cons, List.map_nil, List.cons.injEq, and_true] at hv
  obtain ⟨hv0, hv1, hv2, hv3, hv4⟩ := hv
  have hall : (∀ a ∈ [a0, a1, a2, a3, a4], ∀ b ∈ [a0, a1, a2, a3, a4],
      a.suit = b.suit) ↔
    (∀ a ∈ [b0, b1, b2, b3, b4], ∀ b ∈ [b0, b1, b2, b3, b4],
      a.suit = b.suit) := by
    constructor
    · intro h a ha b hb
      exact h a (hsort.mem_iff.mpr ha) b (hsort.mem_iff.mpr hb)
    · intro h a ha b hb
      exact h a (hsort.mem_iff.mp ha) b (hsort.mem_iff.mp hb)
  exact rank_congr5 a0 a1 a2 a3 a4 b0 b1 b2 b3 b4 hv0 hv1 hv2 hv3 hv4 hall

/-- Claim C7: for any five tokens that each parse as a card, laid out in any
two orders, hand parsing succeeds and both hands receive the identical
rank. -/
theorem claim_C7_theorem :
    ∀ ts us : List (List Char), List.Perm ts us → ts.length = 5 →
      (∀ t ∈ ts, (Card.tryFrom t).isOk = true) →
      ∃ h1 h2 : List Card,
        HoldemHand.tryFrom (joinWS ts) = .ok h1 ∧
        HoldemHand.tryFrom (joinWS us) = .ok h2 ∧
        HoldemHand.rank h1 = HoldemHand.rank h2 := by
  intro ts us hperm hlen hok
  have hok2 : ∀ t ∈ us, (Card.tryFrom t).isOk = true :=
    fun t ht => hok t (hperm.mem_iff.mpr ht)
  have hwf1 : ∀ t ∈ ts, t ≠ [] ∧ ∀ ch ∈ t, ch.isWhitespace = false := by
    intro t ht
    obtain ⟨c, hc⟩ := isOk_exists (hok t ht)
    exact token_ok_wf hc
  have hwf2 : ∀ t ∈ us, t ≠ [] ∧ ∀ ch ∈ t, ch.isWhitespace = false := by
    intro t ht
    obtain ⟨c, hc⟩ := isOk_exists (hok2 t ht)
    exact token_ok_wf hc
  have hlen2 : us.length = 5 := hperm.length_eq.symm.trans hlen
  refine ⟨HoldemHand.new (ts.map fun u => okCard (Card.tryFrom u)),
    HoldemHand.new (us.map fun u => okCard (Card.tryFrom u)), ?_, ?_, ?_⟩
  · unfold HoldemHand.tryFrom
    rw [splitWS_join ts hwf1, parseCards_ok_map ts hok]
    simp [hlen]
  · unfold HoldemHand.tryFrom
    rw [splitWS_join us hwf2, parseCards_ok_map us hok2]
    simp [hlen2]
  · exact rank_new_perm (hperm.map fun u => okCard (Card.tryFrom u))
      (by simp [hlen])

/-- Witness for claim C7's theorem: swapping the first two tokens of
"2c 3h ad ks 10s" leaves the rank unchanged. -/
theorem claim_C7_witness :
    ∃ h1 h2 : List Card,
      HoldemHand.tryFrom (joinWS
        ["2c".toList, "3h".toList, "ad".toList, "ks".toList,
         "10s".toList]) = .ok h1 ∧
      HoldemHand.tryFrom (joinWS
        ["3h".toList, "2c".toList, "ad".toList, "ks".toList,
         "10s".toList]) = .ok h2 ∧
      HoldemHand.rank h1 = HoldemHand.rank h2 :=
  claim_C7_theorem
    ["2c".toList, "3h".toList, "ad".toList, "ks".toList, "10s".toList]
    ["3h".toList, "2c".toList, "ad".toList, "ks".toList, "10s".toList]
    (List.Perm.swap ("3h".toList) ("2c".toList)
      ["ad".toList, "ks".toList, "10s".toList])
    (by decide) (by decide)
